import Mathlib

/-!
Shallow embedding of the auto-scheduling engine of `app/utils/scheduler.py`
(class `AutoScheduler`) together with the parts of `app/models/task.py` it
reads, and a model of the Python name-resolution performed while the module
loads.

Time is modelled at minute granularity as `Nat`: the number of minutes since
an arbitrary epoch midnight.  `datetime.hour` becomes `hourOf`,
`dt.replace(hour := h, minute := 0, second := 0)` becomes `replaceHour`,
`dt + timedelta(minutes := d)` becomes `addMin`, and one day is 1440 minutes.
The unbounded `while True` search loop of `_find_next_slot` is given an
explicit fuel parameter; `none` means the loop has not returned within the
given fuel (the source loops forever exactly when every fuel bound yields
`none`).
-/

namespace Phase1

/-- Hour-of-day of a time stamp in minutes (`dt.hour`). -/
def hourOf (t : Nat) : Nat := t / 60 % 24

/-- Midnight of the day containing `t`. -/
def dayStart (t : Nat) : Nat := t / 1440 * 1440

/-- `dt.replace(hour := h, minute := 0, second := 0)` at minute granularity. -/
def replaceHour (t h : Nat) : Nat := dayStart t + h * 60

/-- `dt + timedelta(minutes := d)` at minute granularity (clamped at the
epoch; every run considered here stays far above it). -/
def addMin (t : Nat) (d : Int) : Nat := ((t : Int) + d).toNat

/-- The columns of `app/models/task.py` that the scheduler reads or writes.
`priority` and `status` are the string values of the `TaskPriority` and
`TaskStatus` enums ("urgent", "high", "medium", "low"; "inbox", "scheduled",
"completed", "archived"); `duration_minutes` is a Python int. -/
structure Task where
  id : Nat
  priority : String
  due_date : Option Nat
  duration_minutes : Int
  scheduled_start : Option Nat
  scheduled_end : Option Nat
  status : String
  user_id : Nat
deriving DecidableEq, Repr

/-- `self.working_hours_start = 9` in `AutoScheduler.__init__`. -/
def working_hours_start : Nat := 9

/-- `self.working_hours_end = 18` in `AutoScheduler.__init__`. -/
def working_hours_end : Nat := 18

/-- `self.buffer_minutes = 15` in `AutoScheduler.__init__`. -/
def buffer_minutes : Nat := 15

/-- `AutoScheduler._priority_weight`: `{"urgent": 0, "high": 1, "medium": 2,
"low": 3}.get(priority, 2)`. -/
def priority_weight (priority : String) : Nat :=
  (([("urgent", 0), ("high", 1), ("medium", 2), ("low", 3)] :
      List (String × Nat)).lookup priority).getD 2

/-- `AutoScheduler._is_working_hours`: with `end := start + duration`,
`working_hours_start <= start.hour < working_hours_end` and
`working_hours_start <= end.hour <= working_hours_end`. -/
def is_working_hours (start : Nat) (duration_minutes : Int) : Bool :=
  let e := addMin start duration_minutes
  decide (working_hours_start ≤ hourOf start ∧ hourOf start < working_hours_end ∧
    working_hours_start ≤ hourOf e ∧ hourOf e ≤ working_hours_end)

/-- `AutoScheduler._next_working_hour`. -/
def next_working_hour (dt : Nat) : Nat :=
  if hourOf dt < working_hours_start then replaceHour dt working_hours_start
  else if working_hours_end ≤ hourOf dt then replaceHour (dt + 1440) working_hours_start
  else dt

/-- `AutoScheduler._has_conflict`: the first task in list order that has both
endpoints set (`if task.scheduled_start and task.scheduled_end`; `None` is
falsy, a datetime is truthy) and whose interval overlaps `[start, e)` by
`not (end <= task.scheduled_start or start >= task.scheduled_end)`. -/
def has_conflict (start e : Nat) : List Task → Option Task
  | [] => none
  | task :: rest =>
    match task.scheduled_start, task.scheduled_end with
    | some s2, some e2 =>
        if ¬ (e ≤ s2 ∨ start ≥ e2) then some task else has_conflict start e rest
    | _, _ => has_conflict start e rest

/-- `AutoScheduler._find_next_slot`: the `while True` loop, with fuel.  On a
conflict the candidate jumps to `conflict.scheduled_end + buffer_minutes`
(the conflict returned by `has_conflict` always has `scheduled_end` set, so
the `getD` default is never read). -/
def find_next_slot : Nat → Nat → Int → List Task → Option Nat
  | 0, _, _, _ => none
  | fuel + 1, candidate, duration_minutes, existing_tasks =>
    if is_working_hours candidate duration_minutes = false then
      find_next_slot fuel (next_working_hour candidate) duration_minutes existing_tasks
    else
      match has_conflict candidate (addMin candidate duration_minutes) existing_tasks with
      | none => some candidate
      | some conflict =>
          find_next_slot fuel (conflict.scheduled_end.getD 0 + buffer_minutes)
            duration_minutes existing_tasks

/-- Order on tasks used by `existing_tasks.sort(key := fun t => t.scheduled_start)`
(every task in that list has `scheduled_start` set, so the `getD` default is
never compared). -/
def starts_before (a b : Task) : Prop :=
  a.scheduled_start.getD 0 ≤ b.scheduled_start.getD 0

instance starts_before_dec : DecidableRel starts_before := fun a b =>
  inferInstanceAs (Decidable (a.scheduled_start.getD 0 ≤ b.scheduled_start.getD 0))

instance : IsTotal Task starts_before := ⟨fun _ _ => Nat.le_total _ _⟩

instance : IsTrans Task starts_before := ⟨fun _ _ _ => Nat.le_trans⟩

/-- Comparison of `t.due_date or datetime.max` values: an absent due date is
`datetime.max`, larger than every concrete stamp and equal to itself. -/
def due_or_max_le : Option Nat → Option Nat → Bool
  | _, none => true
  | none, some _ => false
  | some x, some y => decide (x ≤ y)

/-- The composite sort key of `auto_schedule`:
`(self._priority_weight(t.priority), t.due_date or datetime.max)` compared
lexicographically, as Python compares the key tuples. -/
def sort_key_le (a b : Task) : Prop :=
  priority_weight a.priority < priority_weight b.priority ∨
    (priority_weight a.priority = priority_weight b.priority ∧
      due_or_max_le a.due_date b.due_date = true)

instance sort_key_le_dec : DecidableRel sort_key_le := fun a b =>
  inferInstanceAs (Decidable (priority_weight a.priority < priority_weight b.priority ∨
    (priority_weight a.priority = priority_weight b.priority ∧
      due_or_max_le a.due_date b.due_date = true)))

/-- The `self.db.query(Task)` call of `auto_schedule`: the stored rows of the
user with `scheduled_start` not `NULL` and status other than `"completed"`,
ordered by `scheduled_start` (Python's sorts are stable; a stable sort is
modelled by `List.insertionSort`). -/
def db_query_existing (db : List Task) (user_id : Nat) : List Task :=
  List.insertionSort starts_before
    (db.filter fun t =>
      (t.user_id == user_id) && t.scheduled_start.isSome && (t.status != "completed"))

/-- The `for task in sorted_tasks` loop of `auto_schedule`: place each task at
`_find_next_slot(current_time, task.duration_minutes, existing_tasks)`, set
its endpoints, append it to `existing_tasks` and re-sort that list by
`scheduled_start`, and move `current_time` to `scheduled_end + buffer`.
Returns the placed tasks in placement order, or `none` when some slot search
exhausts its fuel. -/
def schedule_loop (fuel : Nat) : List Task → List Task → Nat → Option (List Task)
  | [], _, _ => some []
  | task :: rest, existing_tasks, current_time =>
    match find_next_slot fuel current_time task.duration_minutes existing_tasks with
    | none => none
    | some slot_start =>
      let task' : Task :=
        { task with
            scheduled_start := some slot_start,
            scheduled_end := some (addMin slot_start task.duration_minutes) }
      match schedule_loop fuel rest
          (List.insertionSort starts_before (existing_tasks ++ [task']))
          (addMin slot_start task.duration_minutes + buffer_minutes) with
      | none => none
      | some placed => some (task' :: placed)

/-- `AutoScheduler.auto_schedule`.  `db` is the task table the
`self.db.query` reads; `now` is the value `datetime.now()` returns at line 34
of the source — an ambient clock reading, not a caller-supplied argument. -/
def auto_schedule (fuel : Nat) (db : List Task) (tasks : List Task)
    (user_id : Nat) (now : Nat) : Option (List Task) :=
  let existing_tasks := db_query_existing db user_id
  let sorted_tasks := List.insertionSort sort_key_le tasks
  let current_time := next_working_hour now
  schedule_loop fuel sorted_tasks existing_tasks current_time

/-- Overlap of two half-open intervals:
`not (a_end <= b_start or a_start >= b_end)`. -/
def iv_overlap (s1 e1 s2 e2 : Nat) : Bool :=
  !(decide (e1 ≤ s2) || decide (s1 ≥ e2))

/-- Overlap of the `[scheduled_start, scheduled_end)` windows of two task
records; a record missing either endpoint carries no interval and overlaps
nothing. -/
def task_overlap (a b : Task) : Bool :=
  match a.scheduled_start, a.scheduled_end, b.scheduled_start, b.scheduled_end with
  | some s1, some e1, some s2, some e2 => iv_overlap s1 e1 s2 e2
  | _, _, _, _ => false

/-- Two task records whose windows do not overlap. -/
def no_overlap (a b : Task) : Prop := task_overlap a b = false

instance no_overlap_dec : DecidableRel no_overlap := fun a b =>
  inferInstanceAs (Decidable (task_overlap a b = false))

/-- A task record with its scheduling endpoints erased; two runs place the
same tasks in the same order exactly when the outputs agree up to this
projection. -/
def clear_schedule (t : Task) : Task :=
  { t with scheduled_start := none, scheduled_end := none }

/-! Name resolution while `app/utils/scheduler.py` is imported.  The module
binds `Session`, `List`, `datetime`, `timedelta` and `Task` with its import
statements and has no `from __future__ import annotations`, so CPython
evaluates every parameter and return annotation of the `def` statements while
the `class AutoScheduler` body executes, i.e. at import time. -/

/-- Builtin names the scheduler's annotations use; always resolvable. -/
def py_builtins : List String := ["int", "bool", "str"]

/-- The names bound by the import statements at the top of the module. -/
def scheduler_imports : List String := ["Session", "List", "datetime", "timedelta", "Task"]

/-- Every name referenced by an annotation of the `def` statements of
`class AutoScheduler`, in evaluation (source) order: `__init__`,
`auto_schedule`, `_find_next_slot`, `_has_conflict`, `_is_working_hours`,
`_next_working_hour`, `_priority_weight`. -/
def scheduler_annotation_refs : List String :=
  ["Session",
   "List", "Task", "int", "List", "Task",
   "datetime", "int", "List", "Task", "datetime",
   "datetime", "datetime", "List", "Task", "Optional", "Task",
   "datetime", "int", "bool",
   "datetime", "datetime",
   "str", "int"]

/-- Resolving one annotation name against the module globals and the
builtins; an unbound name raises `NameError` carrying that name. -/
def resolve_name (n : String) : Except String Unit :=
  if n ∈ scheduler_imports ++ py_builtins then Except.ok () else Except.error n

/-- Importing `app.utils.scheduler`: evaluate the class body's annotations in
order, stopping at the first `NameError`. -/
def load_scheduler_module : Except String Unit :=
  scheduler_annotation_refs.forM resolve_name

/-- An invocation of `AutoScheduler.auto_schedule` from any caller: the
module must be imported before the call can run. -/
def import_and_auto_schedule (fuel : Nat) (db tasks : List Task)
    (user_id now : Nat) : Except String (Option (List Task)) :=
  match load_scheduler_module with
  | Except.error n => Except.error n
  | Except.ok _ => Except.ok (auto_schedule fuel db tasks user_id now)

/-! Concrete fixtures used to instantiate the theorems below. -/

/-- An unscheduled MEDIUM task of the given duration for user 1. -/
def plain_task (dm : Int) : Task :=
  { id := 1, priority := "medium", due_date := none, duration_minutes := dm,
    scheduled_start := none, scheduled_end := none, status := "inbox", user_id := 1 }

/-- The record `task` carries after being placed at minute `s`. -/
def placed_at (task : Task) (s : Nat) : Task :=
  { task with scheduled_start := some s,
              scheduled_end := some (addMin s task.duration_minutes) }

/-- An existing commitment occupying 09:00-10:00 of day 0 for user 1. -/
def commit_9_10 : Task :=
  { id := 9, priority := "medium", due_date := none, duration_minutes := 60,
    scheduled_start := some 540, scheduled_end := some 600,
    status := "scheduled", user_id := 1 }

/-- The same window, already completed. -/
def commit_done : Task :=
  { commit_9_10 with id := 10, status := "completed" }

/-- A commitment with a start but no end stamp. -/
def commit_no_end : Task :=
  { commit_9_10 with id := 11, scheduled_end := none }

end Phase1

namespace Phase1

lemma task_overlap_comm (a b : Task) : task_overlap a b = task_overlap b a := by
  unfold task_overlap
  rcases a.scheduled_start with _ | s1 <;> rcases a.scheduled_end with _ | e1 <;>
    rcases b.scheduled_start with _ | s2 <;> rcases b.scheduled_end with _ | e2 <;>
    simp only []
  by_cases h1 : e1 ≤ s2 <;> by_cases h2 : s1 ≥ e2 <;>
    simp [iv_overlap, h1, h2, ge_iff_le]

lemma no_overlap_symm : ∀ {a b : Task}, no_overlap a b → no_overlap b a := by
  intro a b h
  unfold no_overlap at h ⊢
  rw [task_overlap_comm]
  exact h

lemma has_conflict_eq_none {s e : Nat} {l : List Task} (h : has_conflict s e l = none) :
    ∀ t ∈ l, ∀ p q, t.scheduled_start = some p → t.scheduled_end = some q →
      e ≤ p ∨ s ≥ q := by
  induction l with
  | nil => simp
  | cons a l ih =>
    intro t ht p q hp hq
    rw [List.mem_cons] at ht
    rcases ha1 : a.scheduled_start with _ | p2
    · have h' : has_conflict s e l = none := by
        rw [show has_conflict s e (a :: l) =
              (match a.scheduled_start, a.scheduled_end with
               | some s2, some e2 =>
                   if ¬ (e ≤ s2 ∨ s ≥ e2) then some a else has_conflict s e l
               | _, _ => has_conflict s e l) from rfl, ha1] at h
        exact h
      rcases ht with ht | ht
      · subst ht; rw [ha1] at hp; exact absurd hp (by simp)
      · exact ih h' t ht p q hp hq
    · rcases ha2 : a.scheduled_end with _ | q2
      · have h' : has_conflict s e l = none := by
          rw [show has_conflict s e (a :: l) =
                (match a.scheduled_start, a.scheduled_end with
                 | some s2, some e2 =>
                     if ¬ (e ≤ s2 ∨ s ≥ e2) then some a else has_conflict s e l
                 | _, _ => has_conflict s e l) from rfl, ha1, ha2] at h
          exact h
        rcases ht with ht | ht
        · subst ht; rw [ha2] at hq; exact absurd hq (by simp)
        · exact ih h' t ht p q hp hq
      · have h' : (if ¬ (e ≤ p2 ∨ s ≥ q2) then some a else has_conflict s e l) = none := by
          rw [show has_conflict s e (a :: l) =
                (match a.scheduled_start, a.scheduled_end with
                 | some s2, some e2 =>
                     if ¬ (e ≤ s2 ∨ s ≥ e2) then some a else has_conflict s e l
                 | _, _ => has_conflict s e l) from rfl, ha1, ha2] at h
          exact h
        by_cases hcond : e ≤ p2 ∨ s ≥ q2
        · rw [if_neg (not_not_intro hcond)] at h'
          rcases ht with ht | ht
          · subst ht
            rw [ha1] at hp; rw [ha2] at hq
            injection hp with hp; injection hq with hq
            subst hp; subst hq
            exact hcond
          · exact ih h' t ht p q hp hq
        · rw [if_pos hcond] at h'
          exact absurd h' (by simp)

lemma has_conflict_eq_some {s e : Nat} {l : List Task} {c : Task}
    (h : has_conflict s e l = some c) :
    c ∈ l ∧ c.scheduled_start.isSome ∧ c.scheduled_end.isSome := by
  induction l with
  | nil => simp [has_conflict] at h
  | cons a l ih =>
    rcases ha1 : a.scheduled_start with _ | p2
    · have h' : has_conflict s e l = some c := by
        rw [show has_conflict s e (a :: l) =
              (match a.scheduled_start, a.scheduled_end with
               | some s2, some e2 =>
                   if ¬ (e ≤ s2 ∨ s ≥ e2) then some a else has_conflict s e l
               | _, _ => has_conflict s e l) from rfl, ha1] at h
        exact h
      have := ih h'
      exact ⟨List.mem_cons_of_mem _ this.1, this.2⟩
    · rcases ha2 : a.scheduled_end with _ | q2
      · have h' : has_conflict s e l = some c := by
          rw [show has_conflict s e (a :: l) =
                (match a.scheduled_start, a.scheduled_end with
                 | some s2, some e2 =>
                     if ¬ (e ≤ s2 ∨ s ≥ e2) then some a else has_conflict s e l
                 | _, _ => has_conflict s e l) from rfl, ha1, ha2] at h
          exact h
        have := ih h'
        exact ⟨List.mem_cons_of_mem _ this.1, this.2⟩
      · have h' : (if ¬ (e ≤ p2 ∨ s ≥ q2) then some a else has_conflict s e l) = some c := by
          rw [show has_conflict s e (a :: l) =
                (match a.scheduled_start, a.scheduled_end with
                 | some s2, some e2 =>
                     if ¬ (e ≤ s2 ∨ s ≥ e2) then some a else has_conflict s e l
                 | _, _ => has_conflict s e l) from rfl, ha1, ha2] at h
          exact h
        by_cases hcond : e ≤ p2 ∨ s ≥ q2
        · rw [if_neg (not_not_intro hcond)] at h'
          have := ih h'
          exact ⟨List.mem_cons_of_mem _ this.1, this.2⟩
        · rw [if_pos hcond] at h'
          injection h' with h'
          subst h'
          exact ⟨List.mem_cons_self _ _, by rw [ha1]; rfl, by rw [ha2]; rfl⟩

lemma find_next_slot_sound {dm : Int} {l : List Task} :
    ∀ {fuel cand s : Nat}, find_next_slot fuel cand dm l = some s →
      is_working_hours s dm = true ∧ has_conflict s (addMin s dm) l = none := by
  intro fuel
  induction fuel with
  | zero => intro cand s h; simp [find_next_slot] at h
  | succ n ih =>
    intro cand s h
    unfold find_next_slot at h
    split at h
    · exact ih h
    · rename_i hwh
      rcases hc : has_conflict cand (addMin cand dm) l with _ | c <;> rw [hc] at h
      · injection h with h
        subst h
        exact ⟨eq_true_of_ne_false hwh, hc⟩
      · exact ih h

lemma no_overlap_of_none {s e : Nat} {l : List Task} (h : has_conflict s e l = none)
    {nt : Task} (h1 : nt.scheduled_start = some s) (h2 : nt.scheduled_end = some e) :
    ∀ old ∈ l, no_overlap old nt := by
  intro old hold
  unfold no_overlap task_overlap
  rcases ho1 : old.scheduled_start with _ | p <;> rcases ho2 : old.scheduled_end with _ | q <;>
    rw [h1, h2] <;> simp only []
  have := has_conflict_eq_none h old hold p q ho1 ho2
  simp [iv_overlap, ge_iff_le]
  omega

lemma pairwise_sort_by_start {l : List Task} (h : l.Pairwise no_overlap) :
    (List.insertionSort starts_before l).Pairwise no_overlap :=
  ((List.perm_insertionSort starts_before l).pairwise_iff no_overlap_symm).mpr h

end Phase1

namespace Phase1

lemma schedule_loop_cons (fuel cur : Nat) (task : Task) (rest existing : List Task) :
    schedule_loop fuel (task :: rest) existing cur =
      (match find_next_slot fuel cur task.duration_minutes existing with
       | none => none
       | some s =>
         match schedule_loop fuel rest
             (List.insertionSort starts_before (existing ++ [placed_at task s]))
             (addMin s task.duration_minutes + buffer_minutes) with
         | none => none
         | some placed => some (placed_at task s :: placed)) := rfl

lemma schedule_loop_spec (fuel : Nat) :
    ∀ (ts existing : List Task) (cur : Nat) (placed : List Task),
      schedule_loop fuel ts existing cur = some placed →
      (existing.Pairwise no_overlap → (existing ++ placed).Pairwise no_overlap)
      ∧ (∀ t ∈ placed, t.scheduled_start.isSome ∧
           t.scheduled_end = some (addMin (t.scheduled_start.getD 0) t.duration_minutes))
      ∧ placed.map clear_schedule = ts.map clear_schedule := by
  intro ts
  induction ts with
  | nil =>
    intro existing cur placed h
    have h' : placed = [] := by
      have h2 : (some [] : Option (List Task)) = some placed := h
      injection h2 with h2
      exact h2.symm
    subst h'
    exact ⟨fun hp => by simpa using hp, by simp, by simp⟩
  | cons task rest ih =>
    intro existing cur placed h
    rw [schedule_loop_cons] at h
    rcases hf : find_next_slot fuel cur task.duration_minutes existing with _ | s <;>
      rw [hf] at h
    · have h2 : (none : Option (List Task)) = some placed := h
      exact absurd h2 (by simp)
    · have h3 : (match schedule_loop fuel rest
            (List.insertionSort starts_before (existing ++ [placed_at task s]))
            (addMin s task.duration_minutes + buffer_minutes) with
          | none => none
          | some placed => some (placed_at task s :: placed)) = some placed := h
      rcases hr : schedule_loop fuel rest
          (List.insertionSort starts_before (existing ++ [placed_at task s]))
          (addMin s task.duration_minutes + buffer_minutes) with _ | placed2 <;>
        rw [hr] at h3
      · have h2 : (none : Option (List Task)) = some placed := h3
        exact absurd h2 (by simp)
      · have h2 : some (placed_at task s :: placed2) = some placed := h3
        have hps : placed = placed_at task s :: placed2 := by
          injection h2 with h2
          exact h2.symm
        subst hps
        obtain ⟨hsound1, hsound2⟩ := find_next_slot_sound hf
        obtain ⟨ih1, ih2, ih3⟩ := ih _ _ _ hr
        refine ⟨?_, ?_, ?_⟩
        · intro hpre
          have hno : ∀ old ∈ existing, no_overlap old (placed_at task s) :=
            no_overlap_of_none hsound2 rfl rfl
          have hpre2 : (existing ++ [placed_at task s]).Pairwise no_overlap := by
            rw [List.pairwise_append]
            refine ⟨hpre, by simp, ?_⟩
            intro a ha b hb
            rw [List.mem_singleton] at hb
            subst hb
            exact hno a ha
          have h4 := ih1 (pairwise_sort_by_start hpre2)
          have hperm :
              (List.insertionSort starts_before (existing ++ [placed_at task s])
                ++ placed2).Perm (existing ++ placed_at task s :: placed2) := by
            have p1 := (List.perm_insertionSort starts_before
              (existing ++ [placed_at task s])).append_right placed2
            have e1 : (existing ++ [placed_at task s]) ++ placed2 =
                existing ++ (placed_at task s :: placed2) := by
              simp
            rw [e1] at p1
            exact p1
          exact (hperm.pairwise_iff no_overlap_symm).mp h4
        · intro t ht
          rcases List.mem_cons.mp ht with ht | ht
          · subst ht
            exact ⟨rfl, rfl⟩
          · exact ih2 t ht
        · simp only [List.map_cons]
          rw [ih3]
          have hclear : clear_schedule (placed_at task s) = clear_schedule task := by
            cases task
            rfl
          rw [hclear]

end Phase1

namespace Phase1

lemma find_next_slot_succ (fuel cand : Nat) (dm : Int) (l : List Task) :
    find_next_slot (fuel + 1) cand dm l =
      if is_working_hours cand dm = false then
        find_next_slot fuel (next_working_hour cand) dm l
      else
        match has_conflict cand (addMin cand dm) l with
        | none => some cand
        | some conflict =>
            find_next_slot fuel (conflict.scheduled_end.getD 0 + buffer_minutes) dm l := rfl

lemma due_or_max_le_total (a b : Option Nat) :
    due_or_max_le a b = true ∨ due_or_max_le b a = true := by
  rcases a with _ | x <;> rcases b with _ | y <;> simp [due_or_max_le]
  omega

lemma due_or_max_le_trans {a b c : Option Nat} (h1 : due_or_max_le a b = true)
    (h2 : due_or_max_le b c = true) : due_or_max_le a c = true := by
  rcases a with _ | x <;> rcases b with _ | y <;> rcases c with _ | z <;>
    simp_all [due_or_max_le]
  omega

instance : IsTotal Task sort_key_le := ⟨by
  intro a b
  unfold sort_key_le
  rcases Nat.lt_trichotomy (priority_weight a.priority) (priority_weight b.priority)
    with h | h | h
  · exact Or.inl (Or.inl h)
  · rcases due_or_max_le_total a.due_date b.due_date with hd | hd
    · exact Or.inl (Or.inr ⟨h, hd⟩)
    · exact Or.inr (Or.inr ⟨h.symm, hd⟩)
  · exact Or.inr (Or.inl h)⟩

instance : IsTrans Task sort_key_le := ⟨by
  intro a b c hab hbc
  unfold sort_key_le at hab hbc ⊢
  rcases hab with h1 | ⟨h1, d1⟩ <;> rcases hbc with h2 | ⟨h2, d2⟩
  · exact Or.inl (h1.trans h2)
  · exact Or.inl (by omega)
  · exact Or.inl (by omega)
  · exact Or.inr ⟨h1.trans h2, due_or_max_le_trans d1 d2⟩⟩

lemma is_working_hours_600 (t : Nat) : is_working_hours t 600 = false := by
  simp only [is_working_hours, addMin, hourOf, working_hours_start, working_hours_end,
    decide_eq_false_iff_not]
  intro hcon
  omega

end Phase1

namespace Phase1

/-- Claim C1: whenever the pre-existing occupied intervals returned by the
scheduler's query are mutually non-overlapping and every one of them has both
endpoints set, a completed `auto_schedule` run leaves the whole interval set
(pre-existing commitments together with every newly placed task) free of any
two half-open windows that overlap in the sense
`not (a_end <= b_start or a_start >= b_end)`. -/
theorem auto_schedule_no_overlap (fuel : Nat) (db tasks : List Task)
    (user_id now : Nat) (placed : List Task)
    (_hboth : ∀ t ∈ db_query_existing db user_id,
      t.scheduled_start.isSome ∧ t.scheduled_end.isSome)
    (hpre : (db_query_existing db user_id).Pairwise no_overlap)
    (hrun : auto_schedule fuel db tasks user_id now = some placed) :
    (db_query_existing db user_id ++ placed).Pairwise no_overlap :=
  (schedule_loop_spec fuel _ _ _ _ hrun).1 hpre

/-- Witness for C1: a concrete run against the 09:00-10:00 commitment leaves
a non-overlapping interval set. -/
theorem auto_schedule_no_overlap_witness :
    (db_query_existing [commit_9_10] 1 ++ [placed_at (plain_task 30) 615]).Pairwise
      no_overlap :=
  auto_schedule_no_overlap 4 [commit_9_10] [plain_task 30] 1 480
    [placed_at (plain_task 30) 615] (by decide) (by decide) (by decide)

/-- Claim C2 (the code violates it): a 60-minute task requested at 17:30
(minute 1050 of day 0) is placed at `[17:30, 18:30)` — its `scheduled_end`
1110 lies past the 18:00 close (minute 1080) of the same day, because
`_is_working_hours` compares only the `hour` attribute and accepts any end
instant up to 18:59. -/
theorem scheduled_end_past_working_hours :
    auto_schedule 3 [] [plain_task 60] 1 1050 = some [placed_at (plain_task 60) 1050]
    ∧ (placed_at (plain_task 60) 1050).scheduled_end = some 1110
    ∧ working_hours_end * 60 < 1110
    ∧ dayStart 1110 = dayStart 1050 := by
  refine ⟨by decide, by decide, by decide, by decide⟩

/-- Counterexample to claim C3 as stated: a task with `duration_minutes = 0`
(non-positive) is not rejected — the call succeeds and the task receives the
degenerate placement `[09:00, 09:00)`. -/
theorem zero_duration_scheduled :
    (plain_task 0).duration_minutes ≤ 0
    ∧ auto_schedule 3 [] [plain_task 0] 1 540 = some [placed_at (plain_task 0) 540] := by
  refine ⟨by decide, by decide⟩

/-- Claim C3 as amended: the scheduler performs no duration validation and
has no error path at all.  A non-positive duration is silently placed, and a
600-minute task under the 09:00-18:00 window makes `_find_next_slot` fail to
return for every fuel bound (the source loops forever) instead of surfacing
an InvalidDuration error. -/
theorem no_duration_validation :
    (auto_schedule 3 [] [plain_task 0] 1 540).isSome = true
    ∧ ∀ fuel cand : Nat, ∀ existing : List Task,
        find_next_slot fuel cand 600 existing = none := by
  refine ⟨by decide, ?_⟩
  intro fuel
  induction fuel with
  | zero => intro cand existing; rfl
  | succ n ih =>
    intro cand existing
    rw [find_next_slot_succ, if_pos (is_working_hours_600 cand)]
    exact ih _ _

/-- Claim C4 (the code violates it): a 120-minute task — which fits inside
the 540-minute working day — requested at 17:00 (minute 1020) makes the slot
search stall forever at the same candidate instant: the window fails the
working-hours test, yet `_next_working_hour` returns 17:00 unchanged because
17:00 is inside working hours, so the search never resumes at the next day's
opening time and the call never returns. -/
theorem slot_search_stalls :
    next_working_hour 1020 = 1020
    ∧ is_working_hours 1020 120 = false
    ∧ (∀ fuel : Nat, find_next_slot fuel 1020 120 [] = none)
    ∧ (∀ fuel : Nat, auto_schedule fuel [] [plain_task 120] 1 1020 = none) := by
  have key : ∀ fuel : Nat, find_next_slot fuel 1020 120 [] = none := by
    intro fuel
    induction fuel with
    | zero => rfl
    | succ n ih =>
      rw [find_next_slot_succ,
        if_pos (show is_working_hours 1020 120 = false from rfl)]
      exact ih
  refine ⟨rfl, rfl, key, ?_⟩
  intro fuel
  have h1 : auto_schedule fuel [] [plain_task 120] 1 1020 =
      schedule_loop fuel [plain_task 120] [] 1020 := rfl
  rw [h1, schedule_loop_cons]
  have h2 : find_next_slot fuel 1020 (plain_task 120).duration_minutes [] = none :=
    key fuel
  rw [h2]

end Phase1

namespace Phase1

/-- Counterexample to claim C5 as stated: `auto_schedule` reads the clock via
`datetime.now()` at line 34 instead of taking `now` as a parameter, and two
calls with identical task sets and identical existing commitments but
different ambient clock readings produce different assignments. -/
theorem clock_reading_changes_schedule :
    auto_schedule 3 [] [plain_task 30] 1 540 ≠ auto_schedule 3 [] [plain_task 30] 1 660 := by
  decide

/-- Claim C5 as amended: the scheduling computation is deterministic as a
function of the task set, the stored commitments and the clock value observed
at the start of the call — two calls that observe the same reading produce
identical assignments; but the reading comes from the system clock inside
`auto_schedule`, not from an injected parameter, so calls that are otherwise
identical can differ. -/
theorem deterministic_for_fixed_clock :
    (∀ (fuel : Nat) (db tasks : List Task) (user_id now1 now2 : Nat), now1 = now2 →
      auto_schedule fuel db tasks user_id now1 = auto_schedule fuel db tasks user_id now2)
    ∧ auto_schedule 3 [] [plain_task 45] 1 540 ≠ auto_schedule 3 [] [plain_task 45] 1 600 := by
  refine ⟨?_, by decide⟩
  intro fuel db tasks user_id now1 now2 h
  rw [h]

/-- Witness for C5 (amended): the determinism half applied at a concrete
input. -/
theorem deterministic_for_fixed_clock_witness :
    auto_schedule 3 [] [plain_task 45] 1 540 = auto_schedule 3 [] [plain_task 45] 1 540 :=
  deterministic_for_fixed_clock.1 3 [] [plain_task 45] 1 540 540 rfl

/-- Claim C6: every task placed by a completed `auto_schedule` run carries
`scheduled_end = scheduled_start + duration_minutes` exactly. -/
theorem duration_fidelity (fuel : Nat) (db tasks : List Task) (user_id now : Nat)
    (placed : List Task) (hrun : auto_schedule fuel db tasks user_id now = some placed) :
    ∀ t ∈ placed, t.scheduled_start.isSome ∧
      t.scheduled_end = some (addMin (t.scheduled_start.getD 0) t.duration_minutes) :=
  (schedule_loop_spec fuel _ _ _ _ hrun).2.1

/-- Witness for C6: the concrete placement of a 30-minute task at 09:00. -/
theorem duration_fidelity_witness :
    (placed_at (plain_task 30) 540).scheduled_start.isSome
    ∧ (placed_at (plain_task 30) 540).scheduled_end =
        some (addMin ((placed_at (plain_task 30) 540).scheduled_start.getD 0)
          (placed_at (plain_task 30) 540).duration_minutes) :=
  duration_fidelity 3 [] [plain_task 30] 1 540 [placed_at (plain_task 30) 540]
    (by decide) (placed_at (plain_task 30) 540) (by decide)

/-- Claim C7: the placement (and returned) order of a completed run is the
input task list sorted stably by the composite key — primary key the priority
weight (`"urgent"` 0, `"high"` 1, `"medium"` 2, `"low"` 3, anything else 2),
secondary key the due date with an absent due date largest; the sorted list
is a permutation of the input, it is ordered under the key, and any
key-ordered subsequence of the input (in particular any pair of key-equal
tasks in input order) survives as a subsequence of the sorted list. -/
theorem placement_order (fuel : Nat) (db tasks : List Task) (user_id now : Nat)
    (placed : List Task) (hrun : auto_schedule fuel db tasks user_id now = some placed) :
    placed.map clear_schedule = (List.insertionSort sort_key_le tasks).map clear_schedule
    ∧ (List.insertionSort sort_key_le tasks).Perm tasks
    ∧ (List.insertionSort sort_key_le tasks).Pairwise sort_key_le
    ∧ (∀ sub : List Task, sub.Pairwise sort_key_le → sub.Sublist tasks →
        sub.Sublist (List.insertionSort sort_key_le tasks))
    ∧ priority_weight "urgent" = 0 ∧ priority_weight "high" = 1
    ∧ priority_weight "medium" = 2 ∧ priority_weight "low" = 3
    ∧ (∀ p : String, p ∉ (["urgent", "high", "medium", "low"] : List String) →
        priority_weight p = 2) := by
  refine ⟨(schedule_loop_spec fuel _ _ _ _ hrun).2.2, List.perm_insertionSort _ _,
    List.sorted_insertionSort _ _, ?_, rfl, rfl, rfl, rfl, ?_⟩
  · intro sub hpw hsub
    exact List.sublist_insertionSort hpw hsub
  · intro p hp
    simp only [List.mem_cons, List.not_mem_nil, or_false, not_or] at hp
    obtain ⟨h1, h2, h3, h4⟩ := hp
    have e1 : (p == "urgent") = false := beq_eq_false_iff_ne.mpr h1
    have e2 : (p == "high") = false := beq_eq_false_iff_ne.mpr h2
    have e3 : (p == "medium") = false := beq_eq_false_iff_ne.mpr h3
    have e4 : (p == "low") = false := beq_eq_false_iff_ne.mpr h4
    simp [priority_weight, List.lookup, e1, e2, e3, e4]

/-- Witness for C7: the concrete single-task run returns that task, placed,
in sorted order. -/
theorem placement_order_witness :
    ([placed_at (plain_task 30) 540] : List Task).map clear_schedule =
      (List.insertionSort sort_key_le [plain_task 30]).map clear_schedule :=
  (placement_order 3 [] [plain_task 30] 1 540 [placed_at (plain_task 30) 540]
    (by decide)).1

/-- Claim C8: when the candidate window is inside working hours but hits a
conflicting occupied interval, the next candidate is exactly that conflict's
`scheduled_end` plus the 15-minute buffer (no minute-by-minute advance); and
concretely, with `[09:00, 10:00)` occupied, a 30-minute task requested at
08:00 is placed at `[10:15, 10:45)`. -/
theorem conflict_jump (fuel candidate : Nat) (dm : Int) (existing : List Task)
    (conflict : Task)
    (hwh : is_working_hours candidate dm = true)
    (hc : has_conflict candidate (addMin candidate dm) existing = some conflict) :
    find_next_slot (fuel + 1) candidate dm existing =
      find_next_slot fuel (conflict.scheduled_end.getD 0 + buffer_minutes) dm existing
    ∧ auto_schedule 4 [commit_9_10] [plain_task 30] 1 480 =
        some [placed_at (plain_task 30) 615] := by
  constructor
  · rw [find_next_slot_succ, if_neg (by simp [hwh]), hc]
  · decide

/-- Witness for C8: the jump applied to the concrete 09:00 candidate against
the 09:00-10:00 commitment. -/
theorem conflict_jump_witness :
    (find_next_slot 3 540 30 [commit_9_10] =
      find_next_slot 2 (commit_9_10.scheduled_end.getD 0 + buffer_minutes) 30 [commit_9_10])
    ∧ auto_schedule 4 [commit_9_10] [plain_task 30] 1 480 =
        some [placed_at (plain_task 30) 615] :=
  conflict_jump 2 540 30 [commit_9_10] commit_9_10 (by decide) (by decide)

/-- Claim C9: the module references `Optional` in the return annotation of
`_has_conflict` without importing it, and annotations are evaluated while the
class body executes, so importing `app.utils.scheduler` raises
`NameError: name 'Optional' is not defined` — every invocation of
`auto_schedule`, for every input, fails with that error before any task is
placed. -/
theorem import_raises_name_error :
    load_scheduler_module = Except.error "Optional"
    ∧ ∀ (fuel : Nat) (db tasks : List Task) (user_id now : Nat),
        import_and_auto_schedule fuel db tasks user_id now = Except.error "Optional" := by
  have h : load_scheduler_module = Except.error "Optional" := by rfl
  refine ⟨h, ?_⟩
  intro fuel db tasks user_id now
  unfold import_and_auto_schedule
  rw [h]

/-- Claim C10: the occupied set used for conflict checks contains only
records with status other than `"completed"` and `scheduled_start` set, and a
conflict returned by `_has_conflict` always has both endpoints set; a
completed commitment or one missing an endpoint never blocks a slot, so the
scheduler may place a new task right on top of it (shown concretely for a
completed 09:00-10:00 window and for a window missing its end stamp). -/
theorem completed_and_unset_ignored :
    (∀ (db : List Task) (user_id : Nat), ∀ t ∈ db_query_existing db user_id,
        t.status ≠ "completed" ∧ t.scheduled_start.isSome)
    ∧ (∀ (s e : Nat) (l : List Task) (c : Task), has_conflict s e l = some c →
        c ∈ l ∧ c.scheduled_start.isSome ∧ c.scheduled_end.isSome)
    ∧ db_query_existing [commit_done] 1 = []
    ∧ auto_schedule 3 [commit_done] [plain_task 30] 1 540 =
        some [placed_at (plain_task 30) 540]
    ∧ has_conflict 540 570 [commit_no_end] = none
    ∧ auto_schedule 3 [commit_no_end] [plain_task 30] 1 540 =
        some [placed_at (plain_task 30) 540] := by
  refine ⟨?_, ?_, by decide, by decide, by decide, by decide⟩
  · intro db user_id t ht
    have ht2 : t ∈ db.filter (fun t =>
        (t.user_id == user_id) && t.scheduled_start.isSome && (t.status != "completed")) :=
      (List.perm_insertionSort starts_before _).mem_iff.mp ht
    rw [List.mem_filter] at ht2
    obtain ⟨-, hcond⟩ := ht2
    simp only [Bool.and_eq_true, beq_iff_eq, bne_iff_ne] at hcond
    exact ⟨hcond.2, hcond.1.2⟩
  · intro s e l c h
    exact has_conflict_eq_some h

/-- Witness for C10: the filter and conflict facts applied to the concrete
09:00-10:00 commitment. -/
theorem completed_and_unset_ignored_witness :
    (commit_9_10.status ≠ "completed" ∧ commit_9_10.scheduled_start.isSome)
    ∧ (commit_9_10 ∈ [commit_9_10] ∧ commit_9_10.scheduled_start.isSome
        ∧ commit_9_10.scheduled_end.isSome) :=
  ⟨completed_and_unset_ignored.1 [commit_9_10] 1 commit_9_10 (by decide),
   completed_and_unset_ignored.2.1 540 570 [commit_9_10] commit_9_10 (by decide)⟩

end Phase1
